import Mathlib

/-!
# go-xattr: file attribute flags through `FS_IOC_GETFLAGS` / `FS_IOC_SETFLAGS`

A shallow embedding of `xattr.go`.

* Go `int` values (attribute words, descriptor numbers) are Lean `Int`s in two's
  complement; `&` is `Int.land` and `x &^ y` is `x & (^y)`, i.e.
  `Int.land x (Int.lnot y)`. Neither operation can overflow, so the results agree
  with the machine operations at every width.
* Go `uintptr` is a `Nat` read modulo `2 ^ 64`; `int(u)` is `intOfUintptr u`.
* Go `error` is `Option Errno`, `none` being `nil`.
* The two functions of `golang.org/x/sys/unix` the package calls are not part of
  the package: they are the fields of an `Ioctl σ`, a layer over an arbitrary state
  `σ`. Every function of the package is a state-passing function over such a layer.
* `recording K` is the layer `K` instrumented with a log of the requests issued.
* `fake` is an in-memory layer that keeps one attribute word per descriptor.
-/

namespace Xattr

/-! ## Constants (xattr.go, lines 10-22) -/

/-- FS_IOC_GETFLAGS. -/
def FsIocGetFlags : Nat := 0x80086601

/-- FS_IOC_SETFLAGS. -/
def FsIocSetFlags : Nat := 0x40086602

/-- FS_IMMUTABLE_FL: immutable file. -/
def FsImmutableFlag : Int := 0x00000010

/-- FS_APPEND_FL: writes to file may only append. -/
def FsAppendFlag : Int := 0x00000020

/-- FS_NODUMP_FL: do not dump file. -/
def FsNoDumpFlag : Int := 0x00000040

/-! ## Go values -/

/-- System error number carried by a non-nil Go `error`. -/
abbrev Errno := Nat

/-- Go `x &^ y` (bit clear) on two's complement integers: `x & (^y)`. -/
def andNot (x y : Int) : Int := Int.land x (Int.lnot y)

/-- Go conversion `int(u)` of a `uintptr` on a 64-bit platform. -/
def intOfUintptr (u : Nat) : Int :=
  if u % 2 ^ 64 < 2 ^ 63 then ((u % 2 ^ 64 : Nat) : Int) else ((u % 2 ^ 64 : Nat) : Int) - 2 ^ 64

/-- Go conversion `uintptr(n)` of an `int` on a 64-bit platform. -/
def uintptrOfInt (n : Int) : Nat := (n % 2 ^ 64).toNat

/-- What the package uses of an `*os.File`: the value its method `Fd()` returns. -/
structure File where
  Fd : Nat

/-! ## The ioctl layer (`golang.org/x/sys/unix`) -/

/-- The two entry points of `golang.org/x/sys/unix` the package calls, over a layer state `σ`.
`IoctlGetInt fd req` returns a value together with an error, as the Go function does. -/
structure Ioctl (σ : Type) where
  IoctlGetInt : Int → Nat → σ → (Int × Option Errno) × σ
  IoctlSetPointerInt : Int → Nat → Int → σ → Option Errno × σ

/-- A control request as seen by the ioctl layer. -/
inductive Request where
  | getInt (fd : Int) (req : Nat)
  | setPointerInt (fd : Int) (req : Nat) (value : Int)
  deriving DecidableEq, Repr

/-- The layer `K` with a log: every request is appended to the log, then passed to `K`. -/
def recording {σ : Type} (K : Ioctl σ) : Ioctl (σ × List Request) where
  IoctlGetInt fd req s :=
    ((K.IoctlGetInt fd req s.1).1, ((K.IoctlGetInt fd req s.1).2, s.2 ++ [Request.getInt fd req]))
  IoctlSetPointerInt fd req value s :=
    ((K.IoctlSetPointerInt fd req value s.1).1,
      ((K.IoctlSetPointerInt fd req value s.1).2, s.2 ++ [Request.setPointerInt fd req value]))

/-- ENOTTY: inappropriate ioctl for device. -/
def ENOTTY : Errno := 25

/-- State of the faked ioctl layer: the attribute word stored for each descriptor number, and
the error (if any) with which get-flags and set-flags requests on a descriptor fail. -/
structure FakeFs where
  attr : Int → Int
  getErr : Int → Option Errno
  setErr : Int → Option Errno

/-- A faked ioctl layer. A get-flags request returns the stored word, a set-flags request
replaces it; a request fails, without effect, when the state says so, and any other request
code is rejected with ENOTTY. -/
def fake : Ioctl FakeFs where
  IoctlGetInt fd req s :=
    if req ≠ FsIocGetFlags then ((0, some ENOTTY), s)
    else match s.getErr fd with
      | some e => ((0, some e), s)
      | none => ((s.attr fd, none), s)
  IoctlSetPointerInt fd req value s :=
    if req ≠ FsIocSetFlags then (some ENOTTY, s)
    else match s.setErr fd with
      | some e => (some e, s)
      | none => (none, { s with attr := fun x => if x = fd then value else s.attr x })

/-- A state of the faked layer in which every request succeeds. -/
def okFs (attr : Int → Int) : FakeFs :=
  { attr := attr, getErr := fun _ => none, setErr := fun _ => none }

/-! ## GetAttr / SetAttr (xattr.go, lines 24-52) -/

variable {σ : Type}

/-- GetAttr retrieves the attributes of a file. -/
def GetAttr (K : Ioctl σ) (fd : File) (s : σ) : (Int × Option Errno) × σ :=
  K.IoctlGetInt (intOfUintptr fd.Fd) FsIocGetFlags s

/-- GetAttrFdPtr retrieves the attributes of a file, using file descriptor as uintptr. -/
def GetAttrFdPtr (K : Ioctl σ) (fd : Nat) (s : σ) : (Int × Option Errno) × σ :=
  K.IoctlGetInt (intOfUintptr fd) FsIocGetFlags s

/-- GetAttrFd retrieves the attributes of a file, using file descriptor as int. -/
def GetAttrFd (K : Ioctl σ) (fd : Int) (s : σ) : (Int × Option Errno) × σ :=
  K.IoctlGetInt fd FsIocGetFlags s

/-- SetAttr sets the attributes of a file to the given value. -/
def SetAttr (K : Ioctl σ) (fd : File) (attr : Int) (s : σ) : Option Errno × σ :=
  K.IoctlSetPointerInt (intOfUintptr fd.Fd) FsIocSetFlags attr s

/-- SetAttrFdPtr sets the attributes of a file, using file descriptor as uintptr. -/
def SetAttrFdPtr (K : Ioctl σ) (fd : Nat) (attr : Int) (s : σ) : Option Errno × σ :=
  K.IoctlSetPointerInt (intOfUintptr fd) FsIocSetFlags attr s

/-- SetAttrFd sets the attributes of a file, using file descriptor as int. -/
def SetAttrFd (K : Ioctl σ) (fd : Int) (attr : Int) (s : σ) : Option Errno × σ :=
  K.IoctlSetPointerInt fd FsIocSetFlags attr s

/-! ## Is* (xattr.go, lines 54-133) -/

/-- IsImmutable checks if file has immutable flag set. -/
def IsImmutable (K : Ioctl σ) (fd : File) (s : σ) : Bool × σ :=
  match GetAttr K fd s with
  | ((xattr, err), s1) =>
    if err = none ∧ Int.land xattr FsImmutableFlag ≠ 0 then (true, s1) else (false, s1)

/-- IsImmutableFdPtr checks if file has immutable flag set (descriptor as uintptr). -/
def IsImmutableFdPtr (K : Ioctl σ) (fd : Nat) (s : σ) : Bool × σ :=
  match GetAttrFdPtr K fd s with
  | ((xattr, err), s1) =>
    if err = none ∧ Int.land xattr FsImmutableFlag ≠ 0 then (true, s1) else (false, s1)

/-- IsImmutableFd checks if file has immutable flag set (descriptor as int). -/
def IsImmutableFd (K : Ioctl σ) (fd : Int) (s : σ) : Bool × σ :=
  match GetAttrFd K fd s with
  | ((xattr, err), s1) =>
    if err = none ∧ Int.land xattr FsImmutableFlag ≠ 0 then (true, s1) else (false, s1)

/-- IsAppendOnly checks if file has append only flag set. -/
def IsAppendOnly (K : Ioctl σ) (fd : File) (s : σ) : Bool × σ :=
  match GetAttr K fd s with
  | ((xattr, err), s1) =>
    if err = none ∧ Int.land xattr FsAppendFlag ≠ 0 then (true, s1) else (false, s1)

/-- IsAppendOnlyFdPtr checks if file has append only flag set (descriptor as uintptr). -/
def IsAppendOnlyFdPtr (K : Ioctl σ) (fd : Nat) (s : σ) : Bool × σ :=
  match GetAttrFdPtr K fd s with
  | ((xattr, err), s1) =>
    if err = none ∧ Int.land xattr FsAppendFlag ≠ 0 then (true, s1) else (false, s1)

/-- IsAppendOnlyFd checks if file has append only flag set (descriptor as int). -/
def IsAppendOnlyFd (K : Ioctl σ) (fd : Int) (s : σ) : Bool × σ :=
  match GetAttrFd K fd s with
  | ((xattr, err), s1) =>
    if err = none ∧ Int.land xattr FsAppendFlag ≠ 0 then (true, s1) else (false, s1)

/-- IsNoDump checks if file has no dump flag set. -/
def IsNoDump (K : Ioctl σ) (fd : File) (s : σ) : Bool × σ :=
  match GetAttr K fd s with
  | ((xattr, err), s1) =>
    if err = none ∧ Int.land xattr FsNoDumpFlag ≠ 0 then (true, s1) else (false, s1)

/-- IsNoDumpFdPtr checks if file has no dump flag set (descriptor as uintptr). -/
def IsNoDumpFdPtr (K : Ioctl σ) (fd : Nat) (s : σ) : Bool × σ :=
  match GetAttrFdPtr K fd s with
  | ((xattr, err), s1) =>
    if err = none ∧ Int.land xattr FsNoDumpFlag ≠ 0 then (true, s1) else (false, s1)

/-- IsNoDumpFd checks if file has no dump flag set (descriptor as int). -/
def IsNoDumpFd (K : Ioctl σ) (fd : Int) (s : σ) : Bool × σ :=
  match GetAttrFd K fd s with
  | ((xattr, err), s1) =>
    if err = none ∧ Int.land xattr FsNoDumpFlag ≠ 0 then (true, s1) else (false, s1)

/-! ## Set* (xattr.go, lines 135-178) -/

/-- SetImmutable sets immutable flag on file. -/
def SetImmutable (K : Ioctl σ) (fd : File) (s : σ) : Option Errno × σ :=
  SetAttr K fd FsImmutableFlag s

/-- SetImmutableFdPtr sets immutable flag on file (descriptor as uintptr). -/
def SetImmutableFdPtr (K : Ioctl σ) (fd : Nat) (s : σ) : Option Errno × σ :=
  SetAttrFdPtr K fd FsImmutableFlag s

/-- SetImmutableFd sets immutable flag on file (descriptor as int). -/
def SetImmutableFd (K : Ioctl σ) (fd : Int) (s : σ) : Option Errno × σ :=
  SetAttrFd K fd FsImmutableFlag s

/-- SetAppendOnly sets append only flag on file. -/
def SetAppendOnly (K : Ioctl σ) (fd : File) (s : σ) : Option Errno × σ :=
  SetAttr K fd FsAppendFlag s

/-- SetAppendOnlyFdPtr sets append only flag on file (descriptor as uintptr). -/
def SetAppendOnlyFdPtr (K : Ioctl σ) (fd : Nat) (s : σ) : Option Errno × σ :=
  SetAttrFdPtr K fd FsAppendFlag s

/-- SetAppendOnlyFd sets append only flag on file (descriptor as int). -/
def SetAppendOnlyFd (K : Ioctl σ) (fd : Int) (s : σ) : Option Errno × σ :=
  SetAttrFd K fd FsAppendFlag s

/-- SetNoDump sets no dump flag on file. -/
def SetNoDump (K : Ioctl σ) (fd : File) (s : σ) : Option Errno × σ :=
  SetAttr K fd FsNoDumpFlag s

/-- SetNoDumpFdPtr sets no dump flag on file (descriptor as uintptr). -/
def SetNoDumpFdPtr (K : Ioctl σ) (fd : Nat) (s : σ) : Option Errno × σ :=
  SetAttrFdPtr K fd FsNoDumpFlag s

/-- SetNoDumpFd sets no dump flag on file (descriptor as int). -/
def SetNoDumpFd (K : Ioctl σ) (fd : Int) (s : σ) : Option Errno × σ :=
  SetAttrFd K fd FsNoDumpFlag s

/-! ## UnSet* (xattr.go, lines 180-268) -/

/-- UnSetImmutable unsets immutable flag on file. -/
def UnSetImmutable (K : Ioctl σ) (fd : File) (s : σ) : Option Errno × σ :=
  match GetAttr K fd s with
  | ((xattr, err), s1) =>
    if err ≠ none then (err, s1) else SetAttr K fd (andNot xattr FsImmutableFlag) s1

/-- UnSetImmutableFdPtr unsets immutable flag on file (descriptor as uintptr). -/
def UnSetImmutableFdPtr (K : Ioctl σ) (fd : Nat) (s : σ) : Option Errno × σ :=
  match GetAttrFdPtr K fd s with
  | ((xattr, err), s1) =>
    if err ≠ none then (err, s1) else SetAttrFdPtr K fd (andNot xattr FsImmutableFlag) s1

/-- UnSetImmutableFd unsets immutable flag on file (descriptor as int). -/
def UnSetImmutableFd (K : Ioctl σ) (fd : Int) (s : σ) : Option Errno × σ :=
  match GetAttrFd K fd s with
  | ((xattr, err), s1) =>
    if err ≠ none then (err, s1) else SetAttrFd K fd (andNot xattr FsImmutableFlag) s1

/-- UnSetAppendOnly unsets append only flag on file. -/
def UnSetAppendOnly (K : Ioctl σ) (fd : File) (s : σ) : Option Errno × σ :=
  match GetAttr K fd s with
  | ((xattr, err), s1) =>
    if err ≠ none then (err, s1) else SetAttr K fd (andNot xattr FsAppendFlag) s1

/-- UnSetAppendOnlyFdPtr unsets append only flag on file (descriptor as uintptr). -/
def UnSetAppendOnlyFdPtr (K : Ioctl σ) (fd : Nat) (s : σ) : Option Errno × σ :=
  match GetAttrFdPtr K fd s with
  | ((xattr, err), s1) =>
    if err ≠ none then (err, s1) else SetAttrFdPtr K fd (andNot xattr FsAppendFlag) s1

/-- UnSetAppendOnlyFd unsets append only flag on file (descriptor as int). -/
def UnSetAppendOnlyFd (K : Ioctl σ) (fd : Int) (s : σ) : Option Errno × σ :=
  match GetAttrFd K fd s with
  | ((xattr, err), s1) =>
    if err ≠ none then (err, s1) else SetAttrFd K fd (andNot xattr FsAppendFlag) s1

/-- UnSetNoDump unsets no dump flag on file. -/
def UnSetNoDump (K : Ioctl σ) (fd : File) (s : σ) : Option Errno × σ :=
  match GetAttr K fd s with
  | ((xattr, err), s1) =>
    if err ≠ none then (err, s1) else SetAttr K fd (andNot xattr FsNoDumpFlag) s1

/-- UnSetNoDumpFdPtr unsets no dump flag on file (descriptor as uintptr). -/
def UnSetNoDumpFdPtr (K : Ioctl σ) (fd : Nat) (s : σ) : Option Errno × σ :=
  match GetAttrFdPtr K fd s with
  | ((xattr, err), s1) =>
    if err ≠ none then (err, s1) else SetAttrFdPtr K fd (andNot xattr FsNoDumpFlag) s1

/-- UnSetNoDumpFd unsets no dump flag on file (descriptor as int). -/
def UnSetNoDumpFd (K : Ioctl σ) (fd : Int) (s : σ) : Option Errno × σ :=
  match GetAttrFd K fd s with
  | ((xattr, err), s1) =>
    if err ≠ none then (err, s1) else SetAttrFd K fd (andNot xattr FsNoDumpFlag) s1

/-! ## Index of the exported functions

The 33 functions above are five families (GetAttr, SetAttr, Is*, Set*, UnSet*), each in three
descriptor-addressing variants and, for the last three, one per flag. The tables below only name
them, so that a statement can range over "each flag" and "each variant". -/

/-- The three named flags. -/
inductive Flag where
  | Immutable
  | AppendOnly
  | NoDump
  deriving DecidableEq, Repr

/-- The flag constant of a named flag. -/
def Flag.bit : Flag → Int
  | Flag.Immutable => FsImmutableFlag
  | Flag.AppendOnly => FsAppendFlag
  | Flag.NoDump => FsNoDumpFlag

/-- A descriptor argument in one of the three forms the package accepts. -/
inductive Descriptor where
  | file (fd : File)
  | fdPtr (fd : Nat)
  | fdInt (fd : Int)

/-- The descriptor number the functions of a variant pass to the ioctl layer:
`int(fd.Fd())`, `int(fd)` and `fd`. -/
def Descriptor.number : Descriptor → Int
  | Descriptor.file fd => intOfUintptr fd.Fd
  | Descriptor.fdPtr fd => intOfUintptr fd
  | Descriptor.fdInt fd => fd

/-- GetAttr, GetAttrFdPtr, GetAttrFd. -/
def getAttr (K : Ioctl σ) : Descriptor → σ → (Int × Option Errno) × σ
  | Descriptor.file fd => GetAttr K fd
  | Descriptor.fdPtr fd => GetAttrFdPtr K fd
  | Descriptor.fdInt fd => GetAttrFd K fd

/-- SetAttr, SetAttrFdPtr, SetAttrFd. -/
def setAttr (K : Ioctl σ) : Descriptor → Int → σ → Option Errno × σ
  | Descriptor.file fd => SetAttr K fd
  | Descriptor.fdPtr fd => SetAttrFdPtr K fd
  | Descriptor.fdInt fd => SetAttrFd K fd

/-- The nine predicates Is*. -/
def isFlagSet (K : Ioctl σ) : Flag → Descriptor → σ → Bool × σ
  | Flag.Immutable, Descriptor.file fd => IsImmutable K fd
  | Flag.Immutable, Descriptor.fdPtr fd => IsImmutableFdPtr K fd
  | Flag.Immutable, Descriptor.fdInt fd => IsImmutableFd K fd
  | Flag.AppendOnly, Descriptor.file fd => IsAppendOnly K fd
  | Flag.AppendOnly, Descriptor.fdPtr fd => IsAppendOnlyFdPtr K fd
  | Flag.AppendOnly, Descriptor.fdInt fd => IsAppendOnlyFd K fd
  | Flag.NoDump, Descriptor.file fd => IsNoDump K fd
  | Flag.NoDump, Descriptor.fdPtr fd => IsNoDumpFdPtr K fd
  | Flag.NoDump, Descriptor.fdInt fd => IsNoDumpFd K fd

/-- The nine operations Set*. -/
def setFlag (K : Ioctl σ) : Flag → Descriptor → σ → Option Errno × σ
  | Flag.Immutable, Descriptor.file fd => SetImmutable K fd
  | Flag.Immutable, Descriptor.fdPtr fd => SetImmutableFdPtr K fd
  | Flag.Immutable, Descriptor.fdInt fd => SetImmutableFd K fd
  | Flag.AppendOnly, Descriptor.file fd => SetAppendOnly K fd
  | Flag.AppendOnly, Descriptor.fdPtr fd => SetAppendOnlyFdPtr K fd
  | Flag.AppendOnly, Descriptor.fdInt fd => SetAppendOnlyFd K fd
  | Flag.NoDump, Descriptor.file fd => SetNoDump K fd
  | Flag.NoDump, Descriptor.fdPtr fd => SetNoDumpFdPtr K fd
  | Flag.NoDump, Descriptor.fdInt fd => SetNoDumpFd K fd

/-- The nine operations UnSet*. -/
def unSetFlag (K : Ioctl σ) : Flag → Descriptor → σ → Option Errno × σ
  | Flag.Immutable, Descriptor.file fd => UnSetImmutable K fd
  | Flag.Immutable, Descriptor.fdPtr fd => UnSetImmutableFdPtr K fd
  | Flag.Immutable, Descriptor.fdInt fd => UnSetImmutableFd K fd
  | Flag.AppendOnly, Descriptor.file fd => UnSetAppendOnly K fd
  | Flag.AppendOnly, Descriptor.fdPtr fd => UnSetAppendOnlyFdPtr K fd
  | Flag.AppendOnly, Descriptor.fdInt fd => UnSetAppendOnlyFd K fd
  | Flag.NoDump, Descriptor.file fd => UnSetNoDump K fd
  | Flag.NoDump, Descriptor.fdPtr fd => UnSetNoDumpFdPtr K fd
  | Flag.NoDump, Descriptor.fdInt fd => UnSetNoDumpFd K fd

/-! ## Uniform descriptions of the five families -/

theorem getAttr_eq (K : Ioctl σ) (d : Descriptor) (s : σ) :
    getAttr K d s = K.IoctlGetInt d.number FsIocGetFlags s := by
  cases d <;> rfl

theorem setAttr_eq (K : Ioctl σ) (d : Descriptor) (a : Int) (s : σ) :
    setAttr K d a s = K.IoctlSetPointerInt d.number FsIocSetFlags a s := by
  cases d <;> rfl

theorem isFlagSet_eq (K : Ioctl σ) (F : Flag) (d : Descriptor) (s : σ) :
    isFlagSet K F d s =
      (decide ((K.IoctlGetInt d.number FsIocGetFlags s).1.2 = none ∧
          Int.land (K.IoctlGetInt d.number FsIocGetFlags s).1.1 F.bit ≠ 0),
        (K.IoctlGetInt d.number FsIocGetFlags s).2) := by
  cases F <;> cases d <;>
    simp only [isFlagSet, IsImmutable, IsImmutableFdPtr, IsImmutableFd, IsAppendOnly,
      IsAppendOnlyFdPtr, IsAppendOnlyFd, IsNoDump, IsNoDumpFdPtr, IsNoDumpFd, GetAttr,
      GetAttrFdPtr, GetAttrFd, Descriptor.number, Flag.bit] <;>
    split_ifs with h <;> simp [h]

theorem setFlag_eq (K : Ioctl σ) (F : Flag) (d : Descriptor) (s : σ) :
    setFlag K F d s = K.IoctlSetPointerInt d.number FsIocSetFlags F.bit s := by
  cases F <;> cases d <;> rfl

theorem unSetFlag_eq (K : Ioctl σ) (F : Flag) (d : Descriptor) (s : σ) :
    unSetFlag K F d s =
      if (K.IoctlGetInt d.number FsIocGetFlags s).1.2 ≠ none then
        ((K.IoctlGetInt d.number FsIocGetFlags s).1.2, (K.IoctlGetInt d.number FsIocGetFlags s).2)
      else
        K.IoctlSetPointerInt d.number FsIocSetFlags
          (andNot (K.IoctlGetInt d.number FsIocGetFlags s).1.1 F.bit)
          (K.IoctlGetInt d.number FsIocGetFlags s).2 := by
  cases F <;> cases d <;> rfl

/-! ## Bits of the attribute word -/

theorem int_eq_of_testBit_eq {x y : Int} (h : ∀ i, x.testBit i = y.testBit i) : x = y := by
  have hfalse : ∀ m n : Nat, (∀ i, m.testBit i = !n.testBit i) → False := by
    intro m n hmn
    have hm : m.testBit (m + n) = false :=
      Nat.testBit_lt_two_pow (lt_of_le_of_lt (Nat.le_add_right m n) (Nat.lt_two_pow (m + n)))
    have hn : n.testBit (m + n) = false :=
      Nat.testBit_lt_two_pow (lt_of_le_of_lt (Nat.le_add_left n m) (Nat.lt_two_pow (m + n)))
    have := hmn (m + n)
    rw [hm, hn] at this
    exact Bool.noConfusion this
  cases x with
  | ofNat m =>
    cases y with
    | ofNat n =>
      have : m = n := Nat.eq_of_testBit_eq (fun i => by simpa [Int.testBit] using h i)
      rw [this]
    | negSucc n =>
      exact (hfalse m n (fun i => by simpa [Int.testBit] using h i)).elim
  | negSucc m =>
    cases y with
    | ofNat n =>
      exact (hfalse n m (fun i => by simpa [Int.testBit] using (h i).symm)).elim
    | negSucc n =>
      have : m = n := Nat.eq_of_testBit_eq (fun i => by simpa [Int.testBit] using h i)
      rw [this]

theorem testBit_andNot (w F : Int) (i : Nat) :
    (andNot w F).testBit i = (w.testBit i && !F.testBit i) := by
  unfold andNot
  rw [Int.testBit_land, Int.testBit_lnot]

theorem two_pow_eq_iff (k i : Nat) : ((2 : Int) ^ i = ((2 ^ k : Nat) : Int)) ↔ k = i := by
  constructor
  · intro h
    have h2 : (2 : Nat) ^ i = 2 ^ k := by exact_mod_cast h
    exact (Nat.pow_right_injective (le_refl 2) h2).symm
  · intro h
    subst h
    push_cast
    rfl

theorem flag_testBit (F : Flag) (i : Nat) :
    F.bit.testBit i = decide ((2 : Int) ^ i = F.bit) := by
  have key : ∀ k : Nat, (((2 ^ k : Nat) : Int)).testBit i
      = decide ((2 : Int) ^ i = ((2 ^ k : Nat) : Int)) := by
    intro k
    show Nat.testBit (2 ^ k) i = _
    rw [Nat.testBit_two_pow]
    exact decide_eq_decide.mpr (two_pow_eq_iff k i).symm
  cases F
  · exact key 4
  · exact key 5
  · exact key 6

theorem flag_bit_injective (F G : Flag) (h : F.bit = G.bit) : F = G := by
  cases F <;> cases G <;> first | rfl | (exact absurd h (by decide))

theorem land_andNot_self (w : Int) (F : Int) : Int.land (andNot w F) F = 0 := by
  apply int_eq_of_testBit_eq
  intro i
  rw [Int.testBit_land, testBit_andNot]
  have h0 : (0 : Int).testBit i = false := Nat.zero_testBit i
  rw [h0]
  cases w.testBit i <;> cases F.testBit i <;> rfl

theorem land_andNot_other (w : Int) (F G : Flag) (h : G ≠ F) :
    Int.land (andNot w F.bit) G.bit = Int.land w G.bit := by
  apply int_eq_of_testBit_eq
  intro i
  rw [Int.testBit_land, Int.testBit_land, testBit_andNot, flag_testBit F, flag_testBit G]
  by_cases hG : (2 : Int) ^ i = G.bit
  · have hF : ¬ (2 : Int) ^ i = F.bit := fun hF => h (flag_bit_injective G F (hG.symm.trans hF))
    rw [decide_eq_true hG, decide_eq_false hF]
    simp
  · simp [hG]

/-! ## The claims -/

/-- C1: when the get-flags request on the descriptor succeeds and returns `w`, each UnSet
operation (each flag, each descriptor variant) issues, after that one get-flags request, exactly
one set-flags request, on the same descriptor and with argument `w &^ F`; in the written word
bit `F` is 0 and every other bit equals the same bit of `w`. -/
theorem unSet_writes_word_without_flag (K : Ioctl σ) (F : Flag) (d : Descriptor) (s : σ)
    (log : List Request) (w : Int)
    (hget : (K.IoctlGetInt d.number FsIocGetFlags s).1 = (w, none)) :
    (unSetFlag (recording K) F d (s, log)).2.2 =
        log ++ [Request.getInt d.number FsIocGetFlags,
                Request.setPointerInt d.number FsIocSetFlags (andNot w F.bit)]
      ∧ (∀ i : Nat, (2 : Int) ^ i = F.bit → (andNot w F.bit).testBit i = false)
      ∧ (∀ i : Nat, (2 : Int) ^ i ≠ F.bit → (andNot w F.bit).testBit i = w.testBit i) := by
  refine ⟨?_, ?_, ?_⟩
  · rw [unSetFlag_eq]
    simp [recording, hget]
  · intro i hi
    rw [testBit_andNot, flag_testBit, decide_eq_true hi]
    simp
  · intro i hi
    rw [testBit_andNot, flag_testBit, decide_eq_false hi]
    simp

/-- C1 (instance): on the faked layer holding `0x30` for descriptor 3, `UnSetAppendOnlyFd`. -/
theorem unSet_writes_word_without_flag_witness :
    ((fake.IoctlGetInt (Descriptor.fdInt 3).number FsIocGetFlags (okFs fun _ => 0x30)).1
        = (0x30, none))
      ∧ ((unSetFlag (recording fake) Flag.AppendOnly (Descriptor.fdInt 3)
            (okFs fun _ => 0x30, [])).2.2 =
          [] ++ [Request.getInt (Descriptor.fdInt 3).number FsIocGetFlags,
                 Request.setPointerInt (Descriptor.fdInt 3).number FsIocSetFlags
                   (andNot 0x30 Flag.AppendOnly.bit)]
        ∧ (∀ i : Nat, (2 : Int) ^ i = Flag.AppendOnly.bit →
            (andNot 0x30 Flag.AppendOnly.bit).testBit i = false)
        ∧ (∀ i : Nat, (2 : Int) ^ i ≠ Flag.AppendOnly.bit →
            (andNot 0x30 Flag.AppendOnly.bit).testBit i = (0x30 : Int).testBit i)) :=
  ⟨by decide,
   unSet_writes_word_without_flag fake Flag.AppendOnly (Descriptor.fdInt 3) (okFs fun _ => 0x30)
     [] 0x30 (by decide)⟩

/-- C2: when the get-flags request succeeds and returns `w`, each predicate Is* (each flag, each
descriptor variant) returns true if and only if `w & F ≠ 0`; over the words 0x00, 0x10, 0x20,
0x30, 0x70 held by the faked layer, IsImmutable is true exactly on 0x10, 0x30, 0x70,
IsAppendOnly exactly on 0x20, 0x30, 0x70, and IsNoDump exactly on 0x70. -/
theorem isFlagSet_iff_bit_set (K : Ioctl σ) (F : Flag) (d : Descriptor) (s : σ) (w : Int)
    (hget : (K.IoctlGetInt d.number FsIocGetFlags s).1 = (w, none)) :
    ((isFlagSet K F d s).1 = true ↔ Int.land w F.bit ≠ 0)
      ∧ [0x00, 0x10, 0x20, 0x30, 0x70].map
          (fun x => (isFlagSet fake Flag.Immutable d (okFs fun _ => x)).1)
          = [false, true, false, true, true]
      ∧ [0x00, 0x10, 0x20, 0x30, 0x70].map
          (fun x => (isFlagSet fake Flag.AppendOnly d (okFs fun _ => x)).1)
          = [false, false, true, true, true]
      ∧ [0x00, 0x10, 0x20, 0x30, 0x70].map
          (fun x => (isFlagSet fake Flag.NoDump d (okFs fun _ => x)).1)
          = [false, false, false, false, true] := by
  refine ⟨?_, ?_, ?_, ?_⟩
  · rw [isFlagSet_eq, hget]
    simp
  · cases d <;> rfl
  · cases d <;> rfl
  · cases d <;> rfl

/-- C2 (instance): `IsNoDump` on a file whose descriptor holds `0x70` in the faked layer. -/
theorem isFlagSet_iff_bit_set_witness :
    ((fake.IoctlGetInt (Descriptor.file ⟨5⟩).number FsIocGetFlags (okFs fun _ => 0x70)).1
        = (0x70, none))
      ∧ (((isFlagSet fake Flag.NoDump (Descriptor.file ⟨5⟩) (okFs fun _ => 0x70)).1 = true
            ↔ Int.land 0x70 Flag.NoDump.bit ≠ 0)
        ∧ [0x00, 0x10, 0x20, 0x30, 0x70].map
            (fun x => (isFlagSet fake Flag.Immutable (Descriptor.file ⟨5⟩) (okFs fun _ => x)).1)
            = [false, true, false, true, true]
        ∧ [0x00, 0x10, 0x20, 0x30, 0x70].map
            (fun x => (isFlagSet fake Flag.AppendOnly (Descriptor.file ⟨5⟩) (okFs fun _ => x)).1)
            = [false, false, true, true, true]
        ∧ [0x00, 0x10, 0x20, 0x30, 0x70].map
            (fun x => (isFlagSet fake Flag.NoDump (Descriptor.file ⟨5⟩) (okFs fun _ => x)).1)
            = [false, false, false, false, true]) :=
  ⟨by decide,
   isFlagSet_iff_bit_set fake Flag.NoDump (Descriptor.file ⟨5⟩) (okFs fun _ => 0x70) 0x70
     (by decide)⟩

/-- C3: when the get-flags request fails with an error `e`, whatever word `v` comes back with the
error, each predicate Is* (each flag, each descriptor variant) returns false; its result is a
plain boolean, and the failed get-flags request is the only request it issues. -/
theorem isFlagSet_false_of_get_error (K : Ioctl σ) (F : Flag) (d : Descriptor) (s : σ)
    (log : List Request) (e : Errno) (v : Int)
    (hget : (K.IoctlGetInt d.number FsIocGetFlags s).1 = (v, some e)) :
    isFlagSet (recording K) F d (s, log) =
      (false, ((K.IoctlGetInt d.number FsIocGetFlags s).2,
        log ++ [Request.getInt d.number FsIocGetFlags])) := by
  rw [isFlagSet_eq]
  simp [recording, hget]

/-- C3 (instance): a layer whose get-flags request fails with error 1 and hands back the word
`0x70`; `IsImmutableFdPtr` is false although bit `0x10` is set in that word. -/
theorem isFlagSet_false_of_get_error_witness :
    (((⟨fun _ _ s => ((0x70, some 1), s), fun _ _ _ s => (none, s)⟩ : Ioctl Unit).IoctlGetInt
        (Descriptor.fdPtr 7).number FsIocGetFlags ()).1 = (0x70, some 1))
      ∧ isFlagSet (recording (⟨fun _ _ s => ((0x70, some 1), s), fun _ _ _ s => (none, s)⟩ :
            Ioctl Unit)) Flag.Immutable (Descriptor.fdPtr 7) ((), []) =
          (false, (((⟨fun _ _ s => ((0x70, some 1), s), fun _ _ _ s => (none, s)⟩ :
            Ioctl Unit).IoctlGetInt (Descriptor.fdPtr 7).number FsIocGetFlags ()).2,
            [] ++ [Request.getInt (Descriptor.fdPtr 7).number FsIocGetFlags])) :=
  ⟨by decide,
   isFlagSet_false_of_get_error
     (⟨fun _ _ s => ((0x70, some 1), s), fun _ _ _ s => (none, s)⟩ : Ioctl Unit)
     Flag.Immutable (Descriptor.fdPtr 7) () [] 1 0x70 (by decide)⟩

/-- C4: each Set operation (each flag, each descriptor variant) issues a single request, the
set-flags request with the literal value `F`, and no read; its error is that of the request. On
the faked layer where every request succeeds, whatever word `attr d.number` was stored before, a
Set followed by GetAttr returns exactly `F`. -/
theorem setFlag_writes_literal_flag (K : Ioctl σ) (F : Flag) (d : Descriptor) (s : σ)
    (log : List Request) (attr : Int → Int) :
    setFlag (recording K) F d (s, log) =
        ((K.IoctlSetPointerInt d.number FsIocSetFlags F.bit s).1,
          ((K.IoctlSetPointerInt d.number FsIocSetFlags F.bit s).2,
            log ++ [Request.setPointerInt d.number FsIocSetFlags F.bit]))
      ∧ (setFlag fake F d (okFs attr)).1 = none
      ∧ (getAttr fake d (setFlag fake F d (okFs attr)).2).1 = (F.bit, none) := by
  refine ⟨?_, ?_, ?_⟩
  · rw [setFlag_eq]
    rfl
  · rw [setFlag_eq]
    rfl
  · rw [setFlag_eq, getAttr_eq]
    simp [fake, okFs]

/-- C5 (the code at the failing input): the faked layer holds the word `0x20` (append-only) for
descriptor 3; `SetImmutableFd` succeeds and the word becomes `0x10`: bit 5, which is not the
targeted bit 4, was 1 and is now 0. -/
theorem setImmutable_clears_append_only :
    (GetAttrFd fake 3 (okFs fun _ => 0x20)).1 = (0x20, none)
      ∧ (SetImmutableFd fake 3 (okFs fun _ => 0x20)).1 = none
      ∧ (GetAttrFd fake 3 (SetImmutableFd fake 3 (okFs fun _ => 0x20)).2).1 = (0x10, none)
      ∧ (0x20 : Int).testBit 5 = true
      ∧ (0x10 : Int).testBit 5 = false := by
  decide

/-- C6: for each UnSet operation (each flag, each descriptor variant): if the get-flags request
fails with error `e`, the operation returns exactly `e`, the get-flags request is the only
request it issues and the layer is left as that request left it (on the faked layer: unchanged);
if the get succeeds with word `w`, the operation returns the error of the set-flags request of
`w &^ F`; it returns no error if and only if both requests succeed. -/
theorem unSetFlag_error_propagation (K : Ioctl σ) (F : Flag) (d : Descriptor) (s : σ)
    (log : List Request) :
    (∀ (e : Errno) (v : Int), (K.IoctlGetInt d.number FsIocGetFlags s).1 = (v, some e) →
        unSetFlag (recording K) F d (s, log) =
          (some e, ((K.IoctlGetInt d.number FsIocGetFlags s).2,
            log ++ [Request.getInt d.number FsIocGetFlags])))
      ∧ (∀ (fs : FakeFs) (e : Errno), fs.getErr d.number = some e →
          unSetFlag fake F d fs = (some e, fs))
      ∧ (∀ w : Int, (K.IoctlGetInt d.number FsIocGetFlags s).1 = (w, none) →
          (unSetFlag (recording K) F d (s, log)).1 =
            (K.IoctlSetPointerInt d.number FsIocSetFlags (andNot w F.bit)
              (K.IoctlGetInt d.number FsIocGetFlags s).2).1)
      ∧ ((unSetFlag (recording K) F d (s, log)).1 = none ↔
          (K.IoctlGetInt d.number FsIocGetFlags s).1.2 = none ∧
          (K.IoctlSetPointerInt d.number FsIocSetFlags
            (andNot (K.IoctlGetInt d.number FsIocGetFlags s).1.1 F.bit)
            (K.IoctlGetInt d.number FsIocGetFlags s).2).1 = none) := by
  refine ⟨?_, ?_, ?_, ?_⟩
  · intro e v hget
    rw [unSetFlag_eq]
    simp [recording, hget]
  · intro fs e hfs
    rw [unSetFlag_eq]
    simp [fake, hfs]
  · intro w hget
    rw [unSetFlag_eq]
    simp [recording, hget]
  · rw [unSetFlag_eq]
    cases hget : (K.IoctlGetInt d.number FsIocGetFlags s).1.2 with
    | none => simp [recording, hget]
    | some e => simp [recording, hget]

/-- C6 (instance): on the faked layer whose get-flags request on descriptor 3 fails with error 1,
`UnSetImmutableFd` returns error 1, issues the get-flags request only and changes nothing. -/
theorem unSetFlag_error_propagation_witness :
    unSetFlag (recording fake) Flag.Immutable (Descriptor.fdInt 3)
        ((⟨fun _ => 0x30, fun _ => some 1, fun _ => none⟩ : FakeFs), []) =
      (some 1, ((fake.IoctlGetInt (Descriptor.fdInt 3).number FsIocGetFlags
          (⟨fun _ => 0x30, fun _ => some 1, fun _ => none⟩ : FakeFs)).2,
        [] ++ [Request.getInt (Descriptor.fdInt 3).number FsIocGetFlags])) :=
  (unSetFlag_error_propagation fake Flag.Immutable (Descriptor.fdInt 3)
    (⟨fun _ => 0x30, fun _ => some 1, fun _ => none⟩ : FakeFs) []).1 1 0 (by decide)

/-- C7: SetAttr (each descriptor variant) issues a single set-flags request carrying the value
`X` as given; on the faked layer where every request succeeds, SetAttr of `X` succeeds, a
following GetAttr returns `X` exactly with no error, and a second SetAttr of `X` leaves the
state the first one produced. -/
theorem setAttr_getAttr_round_trip (K : Ioctl σ) (d : Descriptor) (X : Int) (s : σ)
    (log : List Request) (attr : Int → Int) :
    (setAttr (recording K) d X (s, log)).2.2 =
        log ++ [Request.setPointerInt d.number FsIocSetFlags X]
      ∧ (setAttr fake d X (okFs attr)).1 = none
      ∧ getAttr fake d (setAttr fake d X (okFs attr)).2 =
          ((X, none), (setAttr fake d X (okFs attr)).2)
      ∧ setAttr fake d X (setAttr fake d X (okFs attr)).2 =
          (none, (setAttr fake d X (okFs attr)).2) := by
  refine ⟨?_, ?_, ?_, ?_⟩
  · rw [setAttr_eq]
    rfl
  · rw [setAttr_eq]
    rfl
  · rw [setAttr_eq, getAttr_eq]
    simp [fake, okFs]
  · rw [setAttr_eq, setAttr_eq]
    simp only [fake, okFs, ne_eq, not_true_eq_false, if_false, Prod.mk.injEq, true_and,
      FakeFs.mk.injEq, and_true]
    funext x
    by_cases hx : x = d.number <;> simp [hx]

theorem intOfUintptr_uintptrOfInt (n : Int) (hn : -2 ^ 63 ≤ n ∧ n < 2 ^ 63) :
    intOfUintptr (uintptrOfInt n) = n := by
  obtain ⟨h1, h2⟩ := hn
  unfold intOfUintptr uintptrOfInt
  have hnn : (0 : Int) ≤ n % 2 ^ 64 := Int.emod_nonneg n (by norm_num)
  have hlt : n % 2 ^ 64 < 2 ^ 64 := Int.emod_lt_of_pos n (by norm_num)
  have hcast : (((n % 2 ^ 64).toNat : Nat) : Int) = n % 2 ^ 64 := Int.toNat_of_nonneg hnn
  have hsmall : (n % 2 ^ 64).toNat % 2 ^ 64 = (n % 2 ^ 64).toNat := by
    apply Nat.mod_eq_of_lt
    have : (((n % 2 ^ 64).toNat : Nat) : Int) < ((2 ^ 64 : Nat) : Int) := by
      rw [hcast]
      exact_mod_cast hlt
    exact_mod_cast this
  rw [hsmall]
  split_ifs with h
  · rw [hcast]
    have h3 : (((n % 2 ^ 64).toNat : Nat) : Int) < ((2 ^ 63 : Nat) : Int) := by exact_mod_cast h
    rw [hcast] at h3
    norm_num at h1 h2 h3 hnn hlt ⊢
    omega
  · rw [hcast]
    have h3 : ¬ (((n % 2 ^ 64).toNat : Nat) : Int) < ((2 ^ 63 : Nat) : Int) := by
      exact_mod_cast h
    rw [hcast] at h3
    norm_num at h1 h2 h3 hnn hlt ⊢
    omega

/-- C8: for a descriptor number `n` (a Go int), the handle variant on a file whose `Fd()` is
`uintptr(n)`, the FdPtr variant on `uintptr(n)` and the Fd variant on `n` do the same on every
ioctl layer and every state: they return the same result and error, leave the same layer state
and append the same requests (code, descriptor number, argument) to the log, for each of
GetAttr, SetAttr, Is*, Set* and UnSet*. -/
theorem descriptor_variants_agree (K : Ioctl σ) (s : σ) (log : List Request) (n : Int)
    (f : File) (a : Int) (F : Flag)
    (hn : -2 ^ 63 ≤ n ∧ n < 2 ^ 63) (hf : f.Fd = uintptrOfInt n) :
    (GetAttr (recording K) f (s, log) = GetAttrFd (recording K) n (s, log)
        ∧ GetAttrFdPtr (recording K) (uintptrOfInt n) (s, log)
            = GetAttrFd (recording K) n (s, log))
      ∧ (SetAttr (recording K) f a (s, log) = SetAttrFd (recording K) n a (s, log)
        ∧ SetAttrFdPtr (recording K) (uintptrOfInt n) a (s, log)
            = SetAttrFd (recording K) n a (s, log))
      ∧ (isFlagSet (recording K) F (Descriptor.file f) (s, log)
            = isFlagSet (recording K) F (Descriptor.fdInt n) (s, log)
        ∧ isFlagSet (recording K) F (Descriptor.fdPtr (uintptrOfInt n)) (s, log)
            = isFlagSet (recording K) F (Descriptor.fdInt n) (s, log))
      ∧ (setFlag (recording K) F (Descriptor.file f) (s, log)
            = setFlag (recording K) F (Descriptor.fdInt n) (s, log)
        ∧ setFlag (recording K) F (Descriptor.fdPtr (uintptrOfInt n)) (s, log)
            = setFlag (recording K) F (Descriptor.fdInt n) (s, log))
      ∧ (unSetFlag (recording K) F (Descriptor.file f) (s, log)
            = unSetFlag (recording K) F (Descriptor.fdInt n) (s, log)
        ∧ unSetFlag (recording K) F (Descriptor.fdPtr (uintptrOfInt n)) (s, log)
            = unSetFlag (recording K) F (Descriptor.fdInt n) (s, log)) := by
  have hfile : (Descriptor.file f).number = n := by
    show intOfUintptr f.Fd = n
    rw [hf]
    exact intOfUintptr_uintptrOfInt n hn
  have hptr : (Descriptor.fdPtr (uintptrOfInt n)).number = n :=
    intOfUintptr_uintptrOfInt n hn
  have hint : (Descriptor.fdInt n).number = n := rfl
  refine ⟨⟨?_, ?_⟩, ⟨?_, ?_⟩, ⟨?_, ?_⟩, ⟨?_, ?_⟩, ⟨?_, ?_⟩⟩
  · have h := getAttr_eq (recording K) (Descriptor.file f) (s, log)
    rw [hfile] at h
    exact h
  · have h := getAttr_eq (recording K) (Descriptor.fdPtr (uintptrOfInt n)) (s, log)
    rw [hptr] at h
    exact h
  · have h := setAttr_eq (recording K) (Descriptor.file f) a (s, log)
    rw [hfile] at h
    exact h
  · have h := setAttr_eq (recording K) (Descriptor.fdPtr (uintptrOfInt n)) a (s, log)
    rw [hptr] at h
    exact h
  · rw [isFlagSet_eq, isFlagSet_eq, hfile, hint]
  · rw [isFlagSet_eq, isFlagSet_eq, hptr, hint]
  · rw [setFlag_eq, setFlag_eq, hfile, hint]
  · rw [setFlag_eq, setFlag_eq, hptr, hint]
  · rw [unSetFlag_eq, unSetFlag_eq, hfile, hint]
  · rw [unSetFlag_eq, unSetFlag_eq, hptr, hint]

/-- C8 (instance): descriptor number `-1`, whose `uintptr` is `2 ^ 64 - 1`, on the faked layer,
for the append-only flag. -/
theorem descriptor_variants_agree_witness :
    (-2 ^ 63 ≤ (-1 : Int) ∧ (-1 : Int) < 2 ^ 63)
      ∧ (File.mk 18446744073709551615).Fd = uintptrOfInt (-1)
      ∧ unSetFlag (recording fake) Flag.AppendOnly
            (Descriptor.file (File.mk 18446744073709551615)) (okFs fun _ => 0x30, [])
          = unSetFlag (recording fake) Flag.AppendOnly (Descriptor.fdInt (-1))
              (okFs fun _ => 0x30, [])
      ∧ unSetFlag (recording fake) Flag.AppendOnly (Descriptor.fdPtr (uintptrOfInt (-1)))
            (okFs fun _ => 0x30, [])
          = unSetFlag (recording fake) Flag.AppendOnly (Descriptor.fdInt (-1))
              (okFs fun _ => 0x30, []) :=
  ⟨by decide, by decide,
   (descriptor_variants_agree fake (okFs fun _ => 0x30) [] (-1)
      (File.mk 18446744073709551615) 0 Flag.AppendOnly (by decide) (by decide)).2.2.2.2⟩

/-- C9: on the faked layer where every request succeeds, starting from a descriptor whose
attribute word is 0x00: after SetImmutable, GetAttr returns 0x10; after a subsequent
SetAppendOnly, GetAttr returns 0x20; after a subsequent UnSetAppendOnly, GetAttr returns 0x00.
Every call succeeds, in each descriptor variant. -/
theorem end_to_end_scenario (d : Descriptor) (attr : Int → Int) (h0 : attr d.number = 0) :
    (getAttr fake d (okFs attr)).1 = (0x00, none)
      ∧ (setFlag fake Flag.Immutable d (okFs attr)).1 = none
      ∧ (getAttr fake d (setFlag fake Flag.Immutable d (okFs attr)).2).1 = (0x10, none)
      ∧ (setFlag fake Flag.AppendOnly d (setFlag fake Flag.Immutable d (okFs attr)).2).1 = none
      ∧ (getAttr fake d
          (setFlag fake Flag.AppendOnly d (setFlag fake Flag.Immutable d (okFs attr)).2).2).1
          = (0x20, none)
      ∧ (unSetFlag fake Flag.AppendOnly d
          (setFlag fake Flag.AppendOnly d (setFlag fake Flag.Immutable d (okFs attr)).2).2).1
          = none
      ∧ (getAttr fake d
          (unSetFlag fake Flag.AppendOnly d
            (setFlag fake Flag.AppendOnly d
              (setFlag fake Flag.Immutable d (okFs attr)).2).2).2).1
          = (0x00, none) := by
  have hz : andNot Flag.AppendOnly.bit Flag.AppendOnly.bit = 0 := by
    apply int_eq_of_testBit_eq
    intro i
    rw [testBit_andNot]
    have hzero : (0 : Int).testBit i = false := Nat.zero_testBit i
    rw [hzero]
    cases Flag.AppendOnly.bit.testBit i <;> rfl
  simp only [getAttr_eq, setFlag_eq, unSetFlag_eq]
  simp [fake, okFs, h0, hz]
  decide

/-- C9 (instance): the scenario through the handle variants `SetImmutable`, `SetAppendOnly`,
`UnSetAppendOnly` and `GetAttr`, on a file with descriptor 3. -/
theorem end_to_end_scenario_witness :
    (fun _ : Int => (0 : Int)) (Descriptor.file ⟨3⟩).number = 0
      ∧ (GetAttr fake ⟨3⟩ (SetImmutable fake ⟨3⟩ (okFs fun _ => 0)).2).1 = (0x10, none)
      ∧ (GetAttr fake ⟨3⟩
          (SetAppendOnly fake ⟨3⟩ (SetImmutable fake ⟨3⟩ (okFs fun _ => 0)).2).2).1
          = (0x20, none)
      ∧ (GetAttr fake ⟨3⟩
          (UnSetAppendOnly fake ⟨3⟩
            (SetAppendOnly fake ⟨3⟩ (SetImmutable fake ⟨3⟩ (okFs fun _ => 0)).2).2).2).1
          = (0x00, none) :=
  have h := end_to_end_scenario (Descriptor.file ⟨3⟩) (fun _ => 0) rfl
  ⟨rfl, h.2.2.1, h.2.2.2.2.1, h.2.2.2.2.2.2⟩

theorem andNot_andNot (w F : Int) : andNot (andNot w F) F = andNot w F := by
  apply int_eq_of_testBit_eq
  intro i
  rw [testBit_andNot, testBit_andNot]
  cases w.testBit i <;> cases F.testBit i <;> rfl

/-- C10: on the faked layer where every request succeeds, for every stored word and all named
flags `F`, `G`: the UnSet operation for `F` succeeds; afterwards the predicate for `G` returns
false when `G` is `F` and, when `G` differs from `F`, what it returned before the UnSet (the
flag constants are single bits, distinct for distinct flags); and a second UnSet for `F` leaves
the state the first one produced. Each holds in each descriptor variant. -/
theorem unSetFlag_clears_only_its_flag (F G : Flag) (d : Descriptor) (attr : Int → Int) :
    (unSetFlag fake F d (okFs attr)).1 = none
      ∧ (isFlagSet fake G d (unSetFlag fake F d (okFs attr)).2).1 =
          (decide (G ≠ F) && (isFlagSet fake G d (okFs attr)).1)
      ∧ (∃ k : Nat, F.bit = 2 ^ k)
      ∧ (F.bit = G.bit ↔ F = G)
      ∧ unSetFlag fake F d (unSetFlag fake F d (okFs attr)).2 =
          (none, (unSetFlag fake F d (okFs attr)).2) := by
  refine ⟨?_, ?_, ?_, ?_, ?_⟩
  · rw [unSetFlag_eq]
    simp [fake, okFs]
  · rw [isFlagSet_eq, isFlagSet_eq, unSetFlag_eq]
    by_cases hGF : G = F
    · subst hGF
      simp [fake, okFs, land_andNot_self]
    · simp [fake, okFs, land_andNot_other (attr d.number) F G hGF, hGF]
  · cases F
    · exact ⟨4, by decide⟩
    · exact ⟨5, by decide⟩
    · exact ⟨6, by decide⟩
  · exact ⟨flag_bit_injective F G, fun h => by rw [h]⟩
  · rw [unSetFlag_eq, unSetFlag_eq]
    simp only [fake, okFs, ne_eq, not_true_eq_false, if_false, Prod.mk.injEq, true_and,
      FakeFs.mk.injEq, and_true, if_true, andNot_andNot]
    funext x
    by_cases hx : x = d.number <;> simp [hx]

end Xattr
